import Mathlib

set_option linter.unusedVariables false

/-!
Shallow embedding of the candidate-summary front-end components
(`CandidateSummaryGenerator.jsx`, `BulkGenerator.jsx`,
`MultipleCandidatesGenerator.jsx`, `SummaryRunsViewer.jsx`) and of the
webhook summary-worker.  JavaScript objects are modelled as association
lists in insertion order, JS string truthiness as inequality with `""`,
and the client-side `setInterval` pollers as step functions consuming a
list of poll outcomes.
-/

namespace CandidateSummary

/-- Alert banner state; `showFlag` embeds the JS field `show` of
`useState({ show: false, type: 'info', message: '' })`. -/
structure AlertState where
  showFlag : Bool
  type : String
  message : String
deriving DecidableEq, Repr

def mkAlert (type message : String) : AlertState :=
  { showFlag := true, type := type, message := message }

def initialAlert : AlertState := { showFlag := false, type := "info", message := "" }

/-- JS object read `obj[k]` for string-keyed objects modelled as assoc lists. -/
def jsObjGet (m : List (String × Bool)) (k : String) : Option Bool :=
  (m.find? (fun p => p.1 == k)).map Prod.snd

/-- JS object write `{...obj, [k]: v}` / `obj[k] = v`: updates the entry in
place when the key exists (JS keeps the original key position), appends
otherwise. -/
def jsObjSet (m : List (String × Bool)) (k : String) (v : Bool) : List (String × Bool) :=
  if m.any (fun p => p.1 == k) then
    m.map (fun p => if p.1 == k then (k, v) else p)
  else
    m ++ [(k, v)]

/-- Whether `l₁` occurs at the start of `l₂`. -/
def isPrefOf : List Char → List Char → Bool
  | [], _ => true
  | _ :: _, [] => false
  | a :: as, b :: bs => a == b && isPrefOf as bs

/-- Whether `l₁` occurs somewhere inside `l₂`. -/
def isSubOf (l₁ : List Char) : List Char → Bool
  | [] => isPrefOf l₁ []
  | b :: bs => isPrefOf l₁ (b :: bs) || isSubOf l₁ bs

/-- JS `s.includes(sub)`. -/
def jsIncludes (s sub : String) : Bool :=
  isSubOf sub.toList s.toList

/-- JS `s.toLowerCase()`, character by character. -/
def jsToLower (s : String) : String :=
  (s.toList.map Char.toLower).asString

/-- JS truthiness-guarded containment test
`name && name.toLowerCase().includes(f.toLowerCase())`. -/
def truthyNameIncludes (name : Option String) (f : String) : Bool :=
  match name with
  | some n => n != "" && jsIncludes (jsToLower n) (jsToLower f)
  | none => false

/-! Section: SummaryRunsViewer.jsx -/

/-- One run-log document as rendered by the runs viewer; `candidate_name`
and `job_name` may be absent from the document. -/
structure SummaryRun where
  id : String
  candidate_name : Option String
  job_name : Option String
deriving DecidableEq, Repr

/-- URL requested by `loadRuns`. -/
def loadRunsUrl (apiBase : String) : String :=
  apiBase ++ "/api/summary-runs?limit=50"

/-- The filter predicate of `filteredRuns` (SummaryRunsViewer.jsx 81-87),
with JS truthiness: `!nameFilter ||
(run.candidate_name && run.candidate_name.toLowerCase().includes(nameFilter.toLowerCase()))`,
and similarly for the job filter. -/
def runMatches (nameFilter jobFilter : String) (run : SummaryRun) : Bool :=
  (nameFilter == "" || truthyNameIncludes run.candidate_name nameFilter) &&
  (jobFilter == "" || truthyNameIncludes run.job_name jobFilter)

/-- Embeds `filteredRuns = runs.filter(...)`. -/
def filteredRuns (runs : List SummaryRun) (nameFilter jobFilter : String) : List SummaryRun :=
  runs.filter (runMatches nameFilter jobFilter)

/-- Spec-side reading of the claim: the run's name field contains the
filter text case-insensitively, an empty filter matching every run. -/
def specNameMatch (filter : String) (name : Option String) : Prop :=
  filter = "" ∨ ∃ n, name = some n ∧ jsIncludes (jsToLower n) (jsToLower filter) = true

/-! Section: CandidateSummaryGenerator.jsx -/

/-- One entry of the `apiStatus` map:
`{ status: 'pending', message: '', data: null }`. -/
structure ApiEntry where
  status : String
  message : String
  data : Option String
deriving DecidableEq, Repr

def pendingEntry : ApiEntry := { status := "pending", message := "", data := none }

/-- The `apiStatus` object with its five fixed keys. -/
structure ApiStatusMap where
  candidate : ApiEntry
  job : ApiEntry
  interview : ApiEntry
  fireflies : ApiEntry
  resume : ApiEntry
deriving DecidableEq, Repr

/-- The `formData` of CandidateSummaryGenerator. -/
structure CSGFormData where
  candidate_slug : String
  job_slug : String
  alpharun_job_id : String
  interview_id : String
  additional_context : String
  fireflies_url : String
deriving DecidableEq, Repr

def emptyCSGFormData : CSGFormData :=
  { candidate_slug := "", job_slug := "", alpharun_job_id := "", interview_id := "",
    additional_context := "", fireflies_url := "" }

/-- Component state of CandidateSummaryGenerator (the `useState` cells the
embedded handlers read or write; the server-fetched prompt lists are kept
abstract and omitted). -/
structure CSGState where
  formData : CSGFormData
  recruitCrmUrl : String
  firefliesUrl : String
  apiStatus : ApiStatusMap
  selectedPrompt : String
  createEmailDraft : Bool
  selectedEmailPrompt : String
  generatedEmailHtml : String
  creatingDraft : Bool
  draftUrl : String
  generatedHtml : String
  loading : Bool
  pushing : Bool
  alert : AlertState
  view : String
  includeFireflies : Bool
  proceedWithoutInterview : Bool
  feedbackSubmitted : Bool
  showFeedbackComment : Bool
  feedbackComment : String
deriving DecidableEq, Repr

/-- The mount-time state: every `useState` initial value. -/
def initialCSGState : CSGState :=
  { formData := emptyCSGFormData
    recruitCrmUrl := ""
    firefliesUrl := ""
    apiStatus :=
      { candidate := pendingEntry, job := pendingEntry, interview := pendingEntry,
        fireflies := pendingEntry, resume := pendingEntry }
    selectedPrompt := ""
    createEmailDraft := false
    selectedEmailPrompt := ""
    generatedEmailHtml := ""
    creatingDraft := false
    draftUrl := ""
    generatedHtml := ""
    loading := false
    pushing := false
    alert := initialAlert
    view := "preview"
    includeFireflies := false
    proceedWithoutInterview := false
    feedbackSubmitted := false
    showFeedbackComment := false
    feedbackComment := "" }

/-- Embeds `resetApiStatus` (CandidateSummaryGenerator.jsx 200-227). -/
def resetApiStatus (st : CSGState) : CSGState :=
  { st with
    apiStatus :=
      { candidate := pendingEntry, job := pendingEntry, interview := pendingEntry,
        fireflies := pendingEntry, resume := pendingEntry }
    recruitCrmUrl := ""
    firefliesUrl := ""
    formData :=
      { candidate_slug := "", job_slug := "", alpharun_job_id := "", interview_id := "",
        additional_context := "", fireflies_url := "" }
    generatedHtml := ""
    generatedEmailHtml := ""
    draftUrl := ""
    feedbackSubmitted := false
    showFeedbackComment := false
    feedbackComment := ""
    includeFireflies := false
    proceedWithoutInterview := false
    createEmailDraft := false }

/-- A fetch issued by the component: URL plus JSON body as key/value pairs. -/
structure HttpRequest where
  url : String
  body : List (String × String)
deriving DecidableEq, Repr

/-- Write the `apiStatus` entry selected by the computed key `[apiType]`. -/
def setApiEntry (m : ApiStatusMap) (t : String) (e : ApiEntry) : ApiStatusMap :=
  if t = "candidate" then { m with candidate := e }
  else if t = "job" then { m with job := e }
  else if t = "interview" then { m with interview := e }
  else if t = "fireflies" then { m with fireflies := e }
  else if t = "resume" then { m with resume := e }
  else m

/-- Synchronous part of `testApi`: bail out when `API_BASE_URL` is unset,
otherwise mark the entry as loading and issue the POST to
`/api/test-{apiType}` (the asynchronous response handling is not needed by
any claim). -/
def testApi (apiBase apiType : String) (payload : List (String × String))
    (st : CSGState) : CSGState × List HttpRequest :=
  if apiBase = "" then (st, [])
  else
    ({ st with apiStatus :=
        setApiEntry st.apiStatus apiType ⟨"loading", "Confirming...", none⟩ },
     [⟨apiBase ++ "/api/test-" ++ apiType, payload⟩])

/-! Subsection: the RecruitCRM URL regex

`/candidate-sequence\/([^/]+)\/assigned_candidates\/\d+\/([^/]+)/` applied
with `String.prototype.match`, i.e. searched at the leftmost position where
it matches.  Both `[^/]+` captures and `\d+` are greedy, and since none of
those classes can match the character that must follow them, each capture
is exactly the maximal run at its position. -/

def seqLit : List Char := "candidate-sequence/".toList

def assignedLit : List Char := "/assigned_candidates/".toList

/-- Strip a literal off the front of the input, or fail. -/
def stripLit : List Char → List Char → Option (List Char)
  | [], s => some s
  | _ :: _, [] => none
  | l :: ls, c :: cs => if l = c then stripLit ls cs else none

def notSlash (ch : Char) : Bool := ch != '/'

/-- Attempt the regex at the start of `s`, returning the two captures. -/
def matchRegexAt (s : List Char) : Option (List Char × List Char) :=
  match stripLit seqLit s with
  | none => none
  | some r1 =>
    let j := r1.takeWhile notSlash
    let r2 := r1.dropWhile notSlash
    if j.isEmpty then none else
    match stripLit assignedLit r2 with
    | none => none
    | some r3 =>
      let num := r3.takeWhile Char.isDigit
      let r4 := r3.dropWhile Char.isDigit
      if num.isEmpty then none else
      match r4 with
      | [] => none
      | ch :: r5 =>
        if ch = '/' then
          let c := r5.takeWhile notSlash
          if c.isEmpty then none else some (j, c)
        else none

/-- Embeds `url.match(regex)`: try the pattern at each position from the left. -/
def regexSearch : List Char → Option (List Char × List Char)
  | [] => matchRegexAt []
  | ch :: rest =>
    match matchRegexAt (ch :: rest) with
    | some r => some r
    | none => regexSearch rest

/-- A regex capture group `([^/]+)`: non-empty, no slash. -/
def slugChars (l : List Char) : Prop := l ≠ [] ∧ ∀ ch ∈ l, ch ≠ '/'

/-- A regex group `\d+`: non-empty, all digits. -/
def digitRun (l : List Char) : Prop := l ≠ [] ∧ ∀ ch ∈ l, ch.isDigit = true

/-- Embeds `handleParseAndConfirm` (CandidateSummaryGenerator.jsx 162-189). -/
def handleParseAndConfirm (apiBase : String) (st : CSGState) :
    CSGState × List HttpRequest :=
  if st.recruitCrmUrl = "" then
    ({ st with alert := mkAlert "error" "Please paste the RecruitCRM URL first." }, [])
  else
    match regexSearch st.recruitCrmUrl.toList with
    | some (j, c) =>
      let jobSlug := j.asString
      let candidateSlug := c.asString
      let st1 := { st with
        alert := mkAlert "info" "URL parsed. Confirming Job, Candidate & Interview...",
        formData := { st.formData with job_slug := jobSlug, candidate_slug := candidateSlug } }
      let (st2, r1) := testApi apiBase "job" [("job_slug", jobSlug)] st1
      let (st3, r2) := testApi apiBase "candidate" [("candidate_slug", candidateSlug)] st2
      let (st4, r3) :=
        testApi apiBase "interview" [("candidate_slug", candidateSlug), ("job_slug", jobSlug)] st3
      (st4, r1 ++ r2 ++ r3)
    | none =>
      ({ st with alert :=
          mkAlert "error" "Could not parse the URL. Please check the format and try again." }, [])

/-- JSON body of a `/api/generate-summary` POST; `none` models a key removed
with `delete`. -/
structure GenPayload where
  candidate_slug : String
  job_slug : String
  alpharun_job_id : Option String
  interview_id : Option String
  additional_context : String
  fireflies_url : Option String
  prompt_type : String
deriving DecidableEq, Repr

structure GenRequest where
  url : String
  payload : GenPayload
deriving DecidableEq, Repr

/-- The `baseApisSuccess` check of `generateSummary`. -/
def baseApisSuccess (st : CSGState) : Bool :=
  st.apiStatus.candidate.status == "success" && st.apiStatus.job.status == "success"

/-- The `interviewApiSuccess` check of `generateSummary`. -/
def interviewApiSuccess (st : CSGState) : Bool :=
  st.apiStatus.interview.status == "success" || st.proceedWithoutInterview

/-- The `firefliesApiSuccess` check of `generateSummary`. -/
def firefliesApiSuccess (st : CSGState) : Bool :=
  !st.includeFireflies || st.apiStatus.fireflies.status == "success"

/-- The `basePayload`: `{...formData}` with `fireflies_url` deleted unless the
Fireflies switch is on and the interview ids deleted when proceeding
without interview; `prompt_type` is added per request. -/
def basePayloadOf (st : CSGState) : GenPayload :=
  { candidate_slug := st.formData.candidate_slug
    job_slug := st.formData.job_slug
    alpharun_job_id :=
      if st.proceedWithoutInterview then none else some st.formData.alpharun_job_id
    interview_id :=
      if st.proceedWithoutInterview then none else some st.formData.interview_id
    additional_context := st.formData.additional_context
    fireflies_url :=
      if st.includeFireflies then some st.formData.fireflies_url else none
    prompt_type := st.selectedPrompt }

/-- Synchronous part of `generateSummary` (CandidateSummaryGenerator.jsx
257-312): the precondition checks and the POST(s) issued when they pass. -/
def generateSummary (apiBase : String) (st : CSGState) : CSGState × List GenRequest :=
  if apiBase = "" then (st, [])
  else if !(baseApisSuccess st && interviewApiSuccess st && firefliesApiSuccess st) then
    ({ st with alert :=
        mkAlert "error" "Please ensure all required details are confirmed successfully." }, [])
  else if st.selectedPrompt == "" then
    ({ st with alert := mkAlert "error" "Please select a summary type." }, [])
  else if st.createEmailDraft && st.selectedEmailPrompt == "" then
    ({ st with alert := mkAlert "error" "Please select an email template." }, [])
  else
    ({ st with
        loading := true
        feedbackSubmitted := false
        showFeedbackComment := false
        feedbackComment := ""
        draftUrl := "" },
     ⟨apiBase ++ "/api/generate-summary", basePayloadOf st⟩ ::
       (if st.createEmailDraft then
         [⟨apiBase ++ "/api/generate-summary",
           { basePayloadOf st with prompt_type := st.selectedEmailPrompt }⟩]
       else []))

structure PushRequest where
  url : String
  candidate_slug : String
  html_summary : String
deriving DecidableEq, Repr

/-- Synchronous part of `pushToRecruitCRM` (CandidateSummaryGenerator.jsx
341-358). -/
def pushToRecruitCRM (apiBase : String) (st : CSGState) : CSGState × List PushRequest :=
  if apiBase = "" then (st, [])
  else if st.generatedHtml == "" || st.formData.candidate_slug == "" then
    ({ st with alert :=
        mkAlert "error" "No summary to push or missing candidate information" }, [])
  else
    ({ st with pushing := true },
     [⟨apiBase ++ "/api/push-to-recruitcrm", st.formData.candidate_slug, st.generatedHtml⟩])

/-- Spec-side conditions named by the claim about `generateSummary`:
candidate and job confirmed, interview confirmed or proceeding without it,
Fireflies confirmed whenever the Fireflies switch is on, and a summary
prompt selected. -/
def claimedGenConditions (st : CSGState) : Prop :=
  st.apiStatus.candidate.status = "success" ∧
  st.apiStatus.job.status = "success" ∧
  (st.apiStatus.interview.status = "success" ∨ st.proceedWithoutInterview = true) ∧
  (st.includeFireflies = true → st.apiStatus.fireflies.status = "success") ∧
  st.selectedPrompt ≠ ""

def successEntry : ApiEntry := { status := "success", message := "ok", data := none }

/-- A state in which every condition the claim lists holds and the
email-draft switch is off. -/
def csgReadyState : CSGState :=
  { initialCSGState with
    apiStatus :=
      { candidate := successEntry, job := successEntry, interview := successEntry,
        fireflies := pendingEntry, resume := pendingEntry }
    selectedPrompt := "recruitment.detailed-v2"
    formData := { emptyCSGFormData with candidate_slug := "cand1", job_slug := "job1" } }

/-- Same state but with the email-draft switch on and no email template
selected. -/
def csgEmailGapState : CSGState :=
  { csgReadyState with createEmailDraft := true, selectedEmailPrompt := "" }

/-- A state holding a generated summary for a confirmed candidate. -/
def csgPushReadyState : CSGState :=
  { initialCSGState with
    generatedHtml := "<p>S</p>"
    formData := { emptyCSGFormData with candidate_slug := "cand1" } }

/-! Section: BulkGenerator.jsx -/

/-- One candidate row returned by `/api/candidates-in-stage`. -/
structure Candidate where
  slug : String
  name : String
deriving DecidableEq, Repr

/-- Embeds `data.reduce((acc, cand) => ({ ...acc, [cand.slug]: true }), {})`
(BulkGenerator.jsx 119; the bulk variant in
MultipleCandidatesGenerator.jsx 928-931 mutates `acc[cand.slug] = true`,
with the same object semantics). -/
def buildSelection (cands : List Candidate) : List (String × Bool) :=
  cands.foldl (fun acc c => jsObjSet acc c.slug true) []

/-- Embeds `Object.values(selectedCandidates).filter(Boolean).length`. -/
def selectedCount (m : List (String × Bool)) : Nat :=
  ((m.map Prod.snd).filter (fun b => b)).length

/-- The `Object.keys` of a modelled JS object. -/
def keysOf (m : List (String × Bool)) : List String := m.map Prod.fst

/-- Per-candidate entry of the job-status document's `results` map. -/
structure ResultEntry where
  status : String
  summary : Option String
deriving DecidableEq, Repr

def jsResGet (m : List (String × ResultEntry)) (k : String) : Option ResultEntry :=
  (m.find? (fun p => p.1 == k)).map Prod.snd

/-- The `/api/bulk-job-status` document. -/
structure JobStatusDoc where
  status : String
  results : List (String × ResultEntry)
  job_name : Option String
  error : Option String
deriving DecidableEq, Repr

/-- BulkGenerator component state relevant to polling and pushing
(`jobId`/`jobStatus` live in the Dashboard parent and arrive as props). -/
structure BGState where
  jobId : Option String
  jobStatus : Option JobStatusDoc
  isProcessing : Bool
  alert : AlertState
deriving DecidableEq, Repr

/-- Embeds `jobStatus?.results?.[slug]?.summary`. -/
def bulkSummaryFor (st : BGState) (slug : String) : Option String :=
  match st.jobStatus with
  | none => none
  | some js =>
    match jsResGet js.results slug with
    | none => none
    | some r => r.summary

/-- Embeds `handleSendToRecruitCRM` (BulkGenerator.jsx 219-243): bail out with an
error alert when `!summary`, otherwise POST the summary. -/
def handleSendToRecruitCRM (apiBase slug : String) (st : BGState) :
    BGState × List PushRequest :=
  match bulkSummaryFor st slug with
  | none =>
    ({ st with alert := mkAlert "error" "Could not find summary for this candidate." }, [])
  | some s =>
    if s = "" then
      ({ st with alert := mkAlert "error" "Could not find summary for this candidate." }, [])
    else
      (st, [⟨apiBase ++ "/api/push-to-recruitcrm", slug, s⟩])

/-! Section: MultipleCandidatesGenerator.jsx (multi-URL form) -/

/-- One entry of `candidateValidation`: `{ status, name }`. -/
structure ValEntry where
  status : String
  name : String
deriving DecidableEq, Repr

/-- Number-keyed JS object read `obj[k]`; an entry explicitly set to
`undefined` (`none`) reads back as absent. -/
def jsNumObjGet (m : List (Nat × Option ValEntry)) (k : Nat) : Option ValEntry :=
  match m.find? (fun p => p.1 == k) with
  | some p => p.2
  | none => none

/-- Number-keyed JS object write `{...obj, [k]: v}`: update in place when
the key exists, append otherwise. -/
def jsNumObjSet (m : List (Nat × Option ValEntry)) (k : Nat) (v : Option ValEntry) :
    List (Nat × Option ValEntry) :=
  match m with
  | [] => [(k, v)]
  | p :: rest => if p.1 == k then (k, v) :: rest else p :: jsNumObjSet rest k v

/-- The `formData` of MultipleCandidatesGenerator. -/
structure MCGFormData where
  candidate_urls : List String
  client_name : String
  job_url : String
  preferred_candidate : String
  additional_context : String
  prompt_type : String
deriving DecidableEq, Repr

/-- The component state touched by `handleCandidateUrlChange`. -/
structure MCGState where
  formData : MCGFormData
  candidateValidation : List (Nat × Option ValEntry)
deriving DecidableEq, Repr

/-- Embeds `handleCandidateUrlChange` (MultipleCandidatesGenerator.jsx 84-99):
copy the URL array with the edited index replaced, then clear that
index's validation entry — but only when one was present. -/
def handleCandidateUrlChange (index : Nat) (value : String) (st : MCGState) : MCGState :=
  let newUrls := st.formData.candidate_urls.set index value
  let st1 := { st with formData := { st.formData with candidate_urls := newUrls } }
  if (jsNumObjGet st.candidateValidation index).isSome then
    { st1 with candidateValidation := jsNumObjSet st.candidateValidation index none }
  else st1

/-! Section: the bulk-job pollers -/

/-- Outcome of one poll attempt: the fetch threw, the response was not ok,
or a job-status document arrived. -/
inductive PollOutcome where
  | netError : PollOutcome
  | notOk : PollOutcome
  | ok : JobStatusDoc → PollOutcome
deriving DecidableEq, Repr

def isFinished (s : String) : Bool := s == "complete" || s == "failed"

def pollUrl (apiBase id : String) : String :=
  apiBase ++ "/api/bulk-job-status/" ++ id

/-- One tick of BulkGenerator's `fetchJobStatus` (BulkGenerator.jsx
136-149): a non-ok response throws into the same catch as a network
error; nothing here clears the interval — that is the effect cleanup's
job, encoded in `bgIntervalActive`. -/
def bgPollStep (st : BGState) (o : PollOutcome) : BGState :=
  match o with
  | .ok data =>
    let st' := { st with jobStatus := some data }
    if isFinished data.status then { st' with isProcessing := false } else st'
  | .netError =>
    { st with
      isProcessing := false
      alert := mkAlert "error" "Polling failed. Check connection." }
  | .notOk =>
    { st with
      isProcessing := false
      alert := mkAlert "error" "Polling failed. Check connection." }

/-- The `useEffect` guard `jobId && jobStatus?.status === 'processing'`:
the polling interval exists exactly while this holds. -/
def bgIntervalActive (st : BGState) : Bool :=
  st.jobId.isSome &&
    (match st.jobStatus with
     | some d => d.status == "processing"
     | none => false)

/-- Run BulkGenerator's poller against a trace of outcomes; requests are
`(time in ms, url)` pairs, the interval firing every 5000 ms. -/
def runBGPoll (apiBase id : String) (st : BGState) (tick : Nat) :
    List PollOutcome → BGState × List (Nat × String)
  | [] => (st, [])
  | o :: rest =>
    if bgIntervalActive st then
      ((runBGPoll apiBase id (bgPollStep st o) (tick + 1) rest).1,
       (5000 * (tick + 1), pollUrl apiBase id) ::
         (runBGPoll apiBase id (bgPollStep st o) (tick + 1) rest).2)
    else (st, [])

/-- BulkGenerator state right after a job starts:
`setJobId(data.job_id); setJobStatus({ status: 'processing', results: {} })`. -/
def bgPollInit (id : String) : BGState :=
  { jobId := some id
    jobStatus := some { status := "processing", results := [], job_name := none, error := none }
    isProcessing := true
    alert := initialAlert }

/-- Poller state of the bulk variant in MultipleCandidatesGenerator.jsx:
`active` is whether the `setInterval` handle is still live. -/
structure MCGBulkState where
  active : Bool
  jobStatus : Option JobStatusDoc
  processingLoading : Bool
  alert : AlertState
deriving DecidableEq, Repr

/-- One tick of `pollJobStatus` (MultipleCandidatesGenerator.jsx 983-1014);
the (stale-closure) `job_name` bookkeeping is omitted. -/
def mcgPollStep (st : MCGBulkState) (o : PollOutcome) : MCGBulkState :=
  match o with
  | .ok data =>
    let st' := { st with jobStatus := some data }
    if isFinished data.status then
      { st' with
        active := false
        processingLoading := false
        alert :=
          if data.status == "complete" then
            mkAlert "success" "All summaries have been processed!"
          else
            mkAlert "error"
              (match data.error with
               | some e => if e = "" then "The bulk processing job failed." else e
               | none => "The bulk processing job failed.") }
    else st'
  | .notOk =>
    { st with
      active := false
      processingLoading := false
      alert := mkAlert "error" "Error fetching job status." }
  | .netError =>
    { st with
      active := false
      processingLoading := false
      alert := mkAlert "error" "A network error occurred while polling for status." }

/-- Run the MultipleCandidatesGenerator poller against a trace of
outcomes. -/
def runMCGPoll (apiBase id : String) (st : MCGBulkState) (tick : Nat) :
    List PollOutcome → MCGBulkState × List (Nat × String)
  | [] => (st, [])
  | o :: rest =>
    if st.active then
      ((runMCGPoll apiBase id (mcgPollStep st o) (tick + 1) rest).1,
       (5000 * (tick + 1), pollUrl apiBase id) ::
         (runMCGPoll apiBase id (mcgPollStep st o) (tick + 1) rest).2)
    else (st, [])

/-- State right after `handleBulkProcess` received its 202 and called
`pollJobStatus(data.job_id)`. -/
def mcgPollInit : MCGBulkState :=
  { active := true, jobStatus := none, processingLoading := true, alert := initialAlert }

/-- An outcome that keeps both pollers going: a successful poll whose job
is still processing. -/
def processingOutcome (o : PollOutcome) : Prop :=
  ∃ d, o = PollOutcome.ok d ∧ d.status = "processing"

/-- A failed poll attempt: the fetch threw or the response was not ok. -/
def failedOutcome (o : PollOutcome) : Prop :=
  o = PollOutcome.netError ∨ o = PollOutcome.notOk

/-! Section: the webhook relay and its summary worker

The webhook listener and worker Cloud Functions' Python code is not under
`src/`; only `backend/webhook/webhook_deploy.sh`, the worker's `deploy.sh`
and its README are.  The worker is therefore modelled from the spec. -/

/-- Which data sources exist for a candidate/job pair. -/
structure SourceAvail where
  candidate : Bool
  job : Bool
  cv : Bool
  annaInterview : Bool
  quil : Bool
deriving DecidableEq, Repr

/-- The sources a generated summary drew on (`sources_used`). -/
structure WorkerRun where
  resume : Bool
  anna_ai : Bool
  quil : Bool
  fireflies : Bool
deriving DecidableEq, Repr

/-- Modelled from the spec: the webhook listener enqueues a Cloud Task
carrying `candidate_slug` and `job_slug` (webhook_deploy.sh,
"Receives task from Cloud Tasks with candidate_slug and job_slug"). -/
structure CloudTask where
  candidate_slug : String
  job_slug : String
deriving DecidableEq, Repr

def webhookEnqueue (candidate_slug job_slug : String) : CloudTask :=
  { candidate_slug := candidate_slug, job_slug := job_slug }

/-- Modelled from the spec: the summary worker's pipeline, from the README
"What It Does" — candidate data and job data are BLOCKING (400, stop), CV
and interview sources are OPTIONAL, then the summary is generated from the
available sources under the default settings `useQuil: true`,
`includeFireflies: false`, "Proceeds without Anna AI interview". -/
def workerPipeline (avail : SourceAvail) : Option WorkerRun :=
  if avail.candidate && avail.job then
    some { resume := avail.cv
           anna_ai := false
           quil := avail.quil
           fireflies := false }
  else none

/-- The single-candidate UI state matching the worker's defaults for a
given source availability: confirmations reflect which sources exist, the
proceed-without-interview switch is on, Fireflies is off, and a summary
prompt is selected. -/
def uiStateFor (avail : SourceAvail) (cSlug jSlug : String) : CSGState :=
  { initialCSGState with
    formData := { emptyCSGFormData with candidate_slug := cSlug, job_slug := jSlug }
    apiStatus :=
      { candidate := if avail.candidate then successEntry else ⟨"error", "not found", none⟩
        job := if avail.job then successEntry else ⟨"error", "not found", none⟩
        interview := if avail.annaInterview then successEntry else ⟨"error", "not found", none⟩
        fireflies := pendingEntry
        resume := if avail.cv then successEntry else ⟨"error", "not found", none⟩ }
    selectedPrompt := "recruitment.detailed-v2"
    proceedWithoutInterview := true
    includeFireflies := false
    createEmailDraft := false }

/-- A state holding a RecruitCRM URL that matches the parsing pattern. -/
def csgUrlState : CSGState :=
  { initialCSGState with
    recruitCrmUrl := "x/candidate-sequence/jobA/assigned_candidates/12/candB" }

/-- A status document of a job still processing. -/
def procDoc : JobStatusDoc :=
  { status := "processing", results := [], job_name := none, error := none }

/-- A status document of a completed job. -/
def doneDoc : JobStatusDoc :=
  { status := "complete", results := [], job_name := none, error := none }

/-- A bulk-job status document holding a finished summary for `cand1`. -/
def bgDoneState : BGState :=
  { jobId := some "j1"
    jobStatus := some
      { status := "complete"
        results := [("cand1", { status := "success", summary := some "<p>S</p>" })]
        job_name := none
        error := none }
    isProcessing := false
    alert := initialAlert }

end CandidateSummary

namespace CandidateSummary

theorem toList_eq_nil (s : String) : s.toList = [] ↔ s = "" := by
  rw [← String.toList_empty, String.toList_inj]

theorem jsIncludes_empty_left (f : String) (hf : f ≠ "") : jsIncludes "" f = false := by
  unfold jsIncludes
  have hl : f.toList ≠ [] := fun h => hf ((toList_eq_nil f).mp h)
  cases hcl : f.toList with
  | nil => exact absurd hcl hl
  | cons c cs => simp [isSubOf, isPrefOf]

theorem jsToLower_eq_empty_iff (s : String) : jsToLower s = "" ↔ s = "" := by
  rw [← toList_eq_nil, ← toList_eq_nil s]
  unfold jsToLower
  rw [List.toList_asString]
  simp

theorem nameClause_iff (f : String) (name : Option String) :
    ((f == "") || truthyNameIncludes name f) = true ↔ specNameMatch f name := by
  cases name with
  | none =>
    simp [specNameMatch, truthyNameIncludes]
  | some n =>
    by_cases hf : f = ""
    · subst hf; simp [specNameMatch]
    · simp only [Bool.or_eq_true, beq_iff_eq, hf, false_or, truthyNameIncludes,
        Bool.and_eq_true, bne_iff_ne, ne_eq, specNameMatch]
      constructor
      · rintro ⟨hn, hinc⟩
        exact ⟨n, rfl, hinc⟩
      · rintro ⟨m, hm, hinc⟩
        obtain rfl : n = m := by injection hm
        refine ⟨?_, hinc⟩
        intro hne
        rw [hne] at hinc
        rw [(jsToLower_eq_empty_iff "").mpr rfl,
          jsIncludes_empty_left _ (fun h => hf ((jsToLower_eq_empty_iff f).mp h))] at hinc
        exact Bool.false_ne_true hinc

theorem runMatches_iff (nf jf : String) (r : SummaryRun) :
    runMatches nf jf r = true ↔
      specNameMatch nf r.candidate_name ∧ specNameMatch jf r.job_name := by
  unfold runMatches
  rw [Bool.and_eq_true, nameClause_iff, nameClause_iff]

/-- C7: the runs viewer loads run logs via `GET /api/summary-runs?limit=50`,
and `filteredRuns` contains exactly those loaded runs whose `candidate_name`
contains the candidate filter text case-insensitively and whose `job_name`
contains the job filter text case-insensitively, an empty filter matching
every run. -/
theorem run_log_viewing_and_filtering (apiBase : String) (runs : List SummaryRun)
    (nf jf : String) (r : SummaryRun) :
    loadRunsUrl apiBase = apiBase ++ "/api/summary-runs?limit=50" ∧
    (r ∈ filteredRuns runs nf jf ↔
      r ∈ runs ∧ specNameMatch nf r.candidate_name ∧ specNameMatch jf r.job_name) := by
  refine ⟨rfl, ?_⟩
  unfold filteredRuns
  rw [List.mem_filter, runMatches_iff]

/-- C10: `resetApiStatus` sets every API status back to pending with empty
message and null data, clears both URL fields, restores `formData` to
all-empty fields, clears generated summary/email HTML, the draft URL, and
all feedback and toggle state — each to its mount-time initial value — and
applying it twice yields the same state as applying it once. -/
theorem reset_restores_initial_state_and_is_idempotent (st : CSGState) :
    ((resetApiStatus st).apiStatus = initialCSGState.apiStatus ∧
     (resetApiStatus st).recruitCrmUrl = initialCSGState.recruitCrmUrl ∧
     (resetApiStatus st).firefliesUrl = initialCSGState.firefliesUrl ∧
     (resetApiStatus st).formData = initialCSGState.formData ∧
     (resetApiStatus st).generatedHtml = initialCSGState.generatedHtml ∧
     (resetApiStatus st).generatedEmailHtml = initialCSGState.generatedEmailHtml ∧
     (resetApiStatus st).draftUrl = initialCSGState.draftUrl ∧
     (resetApiStatus st).feedbackSubmitted = initialCSGState.feedbackSubmitted ∧
     (resetApiStatus st).showFeedbackComment = initialCSGState.showFeedbackComment ∧
     (resetApiStatus st).feedbackComment = initialCSGState.feedbackComment ∧
     (resetApiStatus st).includeFireflies = initialCSGState.includeFireflies ∧
     (resetApiStatus st).proceedWithoutInterview = initialCSGState.proceedWithoutInterview ∧
     (resetApiStatus st).createEmailDraft = initialCSGState.createEmailDraft) ∧
    resetApiStatus (resetApiStatus st) = resetApiStatus st := by
  exact ⟨⟨rfl, rfl, rfl, rfl, rfl, rfl, rfl, rfl, rfl, rfl, rfl, rfl, rfl⟩, rfl⟩

theorem string_append_assoc (a b c : String) : a ++ b ++ c = a ++ (b ++ c) := by
  apply String.toList_inj.mp
  show (a ++ b ++ c).data = (a ++ (b ++ c)).data
  simp [String.data_append, List.append_assoc]

theorem stripLit_eq (l : List Char) : ∀ s r, stripLit l s = some r ↔ s = l ++ r := by
  induction l with
  | nil =>
    intro s r
    simp [stripLit]
  | cons a lt ih =>
    intro s r
    cases s with
    | nil => simp [stripLit]
    | cons c cs =>
      by_cases h : a = c
      · subst h
        simp only [stripLit, if_pos rfl, List.cons_append, List.cons.injEq, true_and]
        exact ih cs r
      · rw [stripLit, if_neg h]
        simp only [List.cons_append, List.cons.injEq]
        constructor
        · intro hh; exact absurd hh (by simp)
        · rintro ⟨hh, _⟩; exact absurd hh.symm h

theorem takeWhile_middle (p : Char → Bool) (l₁ : List Char) (a : Char) (l₂ : List Char)
    (h₁ : ∀ x ∈ l₁, p x = true) (ha : p a = false) :
    (l₁ ++ a :: l₂).takeWhile p = l₁ ∧ (l₁ ++ a :: l₂).dropWhile p = a :: l₂ := by
  induction l₁ with
  | nil => simp [List.takeWhile_cons, List.dropWhile_cons, ha]
  | cons x xs ih =>
    have hx : p x = true := h₁ x (List.mem_cons_self x xs)
    have ihh := ih (fun y hy => h₁ y (List.mem_cons_of_mem _ hy))
    simp [List.takeWhile_cons, List.dropWhile_cons, hx, ihh.1, ihh.2]

theorem takeWhile_sound (p : Char → Bool) (l : List Char) :
    ∀ x ∈ l.takeWhile p, p x = true :=
  fun _ hx => List.mem_takeWhile_imp hx

theorem matchRegexAt_sound (s : List Char) (j c : List Char)
    (h : matchRegexAt s = some (j, c)) :
    ∃ num rest, s = seqLit ++ (j ++ (assignedLit ++ (num ++ ('/' :: (c ++ rest))))) ∧
      slugChars j ∧ digitRun num ∧ slugChars c := by
  unfold matchRegexAt at h
  cases h1 : stripLit seqLit s with
  | none => rw [h1] at h; exact absurd h (by simp)
  | some r1 =>
    rw [h1] at h
    dsimp only at h
    by_cases hj0 : (r1.takeWhile notSlash).isEmpty
    · rw [if_pos hj0] at h; exact absurd h (by simp)
    · rw [if_neg hj0] at h
      cases h2 : stripLit assignedLit (r1.dropWhile notSlash) with
      | none => rw [h2] at h; exact absurd h (by simp)
      | some r3 =>
        rw [h2] at h
        dsimp only at h
        by_cases hn0 : (r3.takeWhile Char.isDigit).isEmpty
        · rw [if_pos hn0] at h; exact absurd h (by simp)
        · rw [if_neg hn0] at h
          cases hr4 : r3.dropWhile Char.isDigit with
          | nil => rw [hr4] at h; exact absurd h (by simp)
          | cons ch r5 =>
            rw [hr4] at h
            dsimp only at h
            by_cases hch : ch = '/'
            · subst hch
              rw [if_pos rfl] at h
              by_cases hc0 : (r5.takeWhile notSlash).isEmpty
              · rw [if_pos hc0] at h; exact absurd h (by simp)
              · rw [if_neg hc0] at h
                obtain ⟨rfl, rfl⟩ : r1.takeWhile notSlash = j ∧ r5.takeWhile notSlash = c := by
                  have := Option.some.inj h
                  exact ⟨congrArg Prod.fst this, congrArg Prod.snd this⟩
                refine ⟨r3.takeWhile Char.isDigit, r5.dropWhile notSlash, ?_, ?_, ?_, ?_⟩
                · have e1 : s = seqLit ++ r1 := (stripLit_eq seqLit s r1).mp h1
                  have e3 : r1.dropWhile notSlash = assignedLit ++ r3 :=
                    (stripLit_eq assignedLit _ r3).mp h2
                  rw [List.takeWhile_append_dropWhile notSlash r5, ← hr4,
                    List.takeWhile_append_dropWhile Char.isDigit r3, ← e3,
                    List.takeWhile_append_dropWhile notSlash r1]
                  exact e1
                · refine ⟨by simpa using hj0, ?_⟩
                  intro x hx
                  have := takeWhile_sound notSlash r1 x hx
                  simpa [notSlash] using this
                · refine ⟨by simpa using hn0, ?_⟩
                  intro x hx
                  exact takeWhile_sound Char.isDigit r3 x hx
                · refine ⟨by simpa using hc0, ?_⟩
                  intro x hx
                  have := takeWhile_sound notSlash r5 x hx
                  simpa [notSlash] using this
            · rw [if_neg hch] at h
              exact absurd h (by simp)

theorem regexSearch_sound (s : List Char) (j c : List Char)
    (h : regexSearch s = some (j, c)) :
    ∃ p num rest,
      s = p ++ (seqLit ++ (j ++ (assignedLit ++ (num ++ ('/' :: (c ++ rest)))))) ∧
      slugChars j ∧ digitRun num ∧ slugChars c := by
  induction s with
  | nil =>
    rw [show regexSearch [] = none from rfl] at h
    exact absurd h (by simp)
  | cons ch rest ih =>
    rw [regexSearch] at h
    cases hm : matchRegexAt (ch :: rest) with
    | some r =>
      rw [hm] at h
      dsimp only at h
      obtain rfl : r = (j, c) := Option.some.inj h
      obtain ⟨num, tail, hdec, hj, hn, hc⟩ := matchRegexAt_sound (ch :: rest) j c hm
      exact ⟨[], num, tail, by simpa using hdec, hj, hn, hc⟩
    | none =>
      rw [hm] at h
      dsimp only at h
      obtain ⟨p, num, tail, hdec, hj, hn, hc⟩ := ih h
      exact ⟨ch :: p, num, tail, by simp [hdec], hj, hn, hc⟩

theorem matchRegexAt_complete (j num c rest : List Char)
    (hj : slugChars j) (hnum : digitRun num) (hc : slugChars c) :
    (matchRegexAt (seqLit ++ (j ++ (assignedLit ++ (num ++ ('/' :: (c ++ rest))))))
      ).isSome := by
  have hAssigned : assignedLit = '/' :: "assigned_candidates/".toList := by decide
  have hjChars : ∀ x ∈ j, notSlash x = true := by
    intro x hx
    simp [notSlash, hj.2 x hx]
  have hTake1 :=
    takeWhile_middle notSlash j '/' ("assigned_candidates/".toList ++ (num ++ ('/' :: (c ++ rest))))
      hjChars (by decide)
  have hnChars : ∀ x ∈ num, Char.isDigit x = true := hnum.2
  have hTake2 := takeWhile_middle Char.isDigit num '/' (c ++ rest) hnChars (by decide)
  unfold matchRegexAt
  rw [(stripLit_eq seqLit _ _).mpr rfl]
  dsimp only
  rw [show j ++ (assignedLit ++ (num ++ ('/' :: (c ++ rest)))) =
      j ++ '/' :: ("assigned_candidates/".toList ++ (num ++ ('/' :: (c ++ rest)))) from by
    rw [hAssigned]; simp]
  rw [hTake1.1, hTake1.2]
  rw [if_neg (by simpa using hj.1)]
  rw [show ('/' :: ("assigned_candidates/".toList ++ (num ++ ('/' :: (c ++ rest))))) =
      assignedLit ++ (num ++ ('/' :: (c ++ rest))) from by rw [hAssigned]; simp]
  rw [(stripLit_eq assignedLit _ _).mpr rfl]
  dsimp only
  rw [hTake2.1, hTake2.2]
  rw [if_neg (by simpa using hnum.1)]
  dsimp only
  rw [if_pos rfl]
  cases hcl : c with
  | nil => exact absurd hcl hc.1
  | cons x xs =>
    have hx : notSlash x = true := by
      simp [notSlash, hc.2 x (by rw [hcl]; exact List.mem_cons_self x xs)]
    rw [show (x :: xs ++ rest : List Char).takeWhile notSlash =
        x :: (xs ++ rest).takeWhile notSlash from by simp [List.takeWhile_cons, hx]]
    rw [if_neg (by simp)]
    simp

theorem regexSearch_of_matchAt (s : List Char) (h : (matchRegexAt s).isSome) :
    (regexSearch s).isSome := by
  cases s with
  | nil => exact h
  | cons ch rest =>
    rw [regexSearch]
    cases hm : matchRegexAt (ch :: rest) with
    | some r => simp
    | none => rw [hm] at h; exact absurd h (by simp)

theorem regexSearch_complete (p j num c rest : List Char)
    (hj : slugChars j) (hnum : digitRun num) (hc : slugChars c) :
    (regexSearch (p ++ (seqLit ++ (j ++ (assignedLit ++ (num ++ ('/' :: (c ++ rest)))))))
      ).isSome := by
  induction p with
  | nil =>
    rw [List.nil_append]
    exact regexSearch_of_matchAt _ (matchRegexAt_complete j num c rest hj hnum hc)
  | cons ch p ih =>
    rw [List.cons_append, regexSearch]
    cases hm : matchRegexAt
        (ch :: (p ++ (seqLit ++ (j ++ (assignedLit ++ (num ++ ('/' :: (c ++ rest)))))))) with
    | some r => simp
    | none => exact ih

/-- C5: `handleParseAndConfirm` extracts `job_slug` and `candidate_slug`
exactly from URLs containing
`candidate-sequence/{job_slug}/assigned_candidates/{number}/{candidate_slug}`
(soundness and completeness of the embedded regex search), firing the
three confirmation requests; for every URL that does not match (or is
empty) it shows an error alert, leaves the form data unchanged, and sends
no confirmation requests. -/
theorem recruitcrm_url_parsing (apiBase : String) (st : CSGState) (hbase : apiBase ≠ "") :
    (∀ j c, regexSearch st.recruitCrmUrl.toList = some (j, c) → st.recruitCrmUrl ≠ "" →
      (handleParseAndConfirm apiBase st).1.formData.job_slug = j.asString ∧
      (handleParseAndConfirm apiBase st).1.formData.candidate_slug = c.asString ∧
      (handleParseAndConfirm apiBase st).2 =
        [⟨apiBase ++ "/api/test-job", [("job_slug", j.asString)]⟩,
         ⟨apiBase ++ "/api/test-candidate", [("candidate_slug", c.asString)]⟩,
         ⟨apiBase ++ "/api/test-interview",
          [("candidate_slug", c.asString), ("job_slug", j.asString)]⟩]) ∧
    ((regexSearch st.recruitCrmUrl.toList = none ∨ st.recruitCrmUrl = "") →
      (handleParseAndConfirm apiBase st).1.formData = st.formData ∧
      (handleParseAndConfirm apiBase st).2 = [] ∧
      (handleParseAndConfirm apiBase st).1.alert.showFlag = true ∧
      (handleParseAndConfirm apiBase st).1.alert.type = "error") ∧
    (∀ j c, regexSearch st.recruitCrmUrl.toList = some (j, c) →
      ∃ p num rest,
        st.recruitCrmUrl.toList =
          p ++ (seqLit ++ (j ++ (assignedLit ++ (num ++ ('/' :: (c ++ rest)))))) ∧
        slugChars j ∧ digitRun num ∧ slugChars c) ∧
    (∀ p j num c rest, slugChars j → digitRun num → slugChars c →
      st.recruitCrmUrl.toList =
        p ++ (seqLit ++ (j ++ (assignedLit ++ (num ++ ('/' :: (c ++ rest)))))) →
      (regexSearch st.recruitCrmUrl.toList).isSome) := by
  refine ⟨?_, ?_, ?_, ?_⟩
  · intro j c hm hurl
    simp only [handleParseAndConfirm, if_neg hurl, hm, testApi, hbase, ite_false,
      if_neg hbase]
    refine ⟨by trivial, by trivial, ?_⟩
    rw [string_append_assoc apiBase "/api/test-" "job",
      string_append_assoc apiBase "/api/test-" "candidate",
      string_append_assoc apiBase "/api/test-" "interview",
      show ("/api/test-" ++ "job" : String) = "/api/test-job" from by decide,
      show ("/api/test-" ++ "candidate" : String) = "/api/test-candidate" from by decide,
      show ("/api/test-" ++ "interview" : String) = "/api/test-interview" from by decide]
    simp
  · intro hfail
    by_cases hurl : st.recruitCrmUrl = ""
    · simp only [handleParseAndConfirm, if_pos hurl]
      refine ⟨by trivial, by trivial, by trivial, by trivial⟩
    · rcases hfail with hm | hm
      · simp only [handleParseAndConfirm, if_neg hurl, hm]
        refine ⟨by trivial, by trivial, by trivial, by trivial⟩
      · exact absurd hm hurl
  · intro j c hm
    exact regexSearch_sound st.recruitCrmUrl.toList j c hm
  · intro p j num c rest hj hnum hc hdec
    rw [hdec]
    exact regexSearch_complete p j num c rest hj hnum hc

theorem recruitcrm_url_parsing_witness :
    (handleParseAndConfirm "http://api" csgUrlState).1.formData.job_slug = "jobA" ∧
    (handleParseAndConfirm "http://api" csgUrlState).1.formData.candidate_slug = "candB" ∧
    (handleParseAndConfirm "http://api" csgUrlState).2.length = 3 := by
  have hm : regexSearch csgUrlState.recruitCrmUrl.toList =
      some ("jobA".toList, "candB".toList) := by decide
  obtain ⟨h1, h2, h3⟩ :=
    (recruitcrm_url_parsing "http://api" csgUrlState (by decide)).1
      "jobA".toList "candB".toList hm (by decide)
  refine ⟨?_, ?_, ?_⟩
  · rw [h1]; rfl
  · rw [h2]; rfl
  · rw [h3]; rfl

/-- C3: the webhook endpoint enqueues a Cloud Task carrying the
candidate/job slugs, and the worker the task later invokes runs the same
single-candidate pipeline as the interactive flow at the worker's default
settings: for every source availability, the worker generates a summary
iff the UI flow sends the generation request, and both block exactly on
the candidate and job confirmations, treating the other sources as
optional. -/
theorem webhook_relay_equivalence (avail : SourceAvail) (cSlug jSlug apiBase : String)
    (hbase : apiBase ≠ "") :
    (webhookEnqueue cSlug jSlug).candidate_slug = cSlug ∧
    (webhookEnqueue cSlug jSlug).job_slug = jSlug ∧
    ((workerPipeline avail).isSome ↔
      (generateSummary apiBase (uiStateFor avail cSlug jSlug)).2 ≠ []) ∧
    ((workerPipeline avail).isSome ↔ (avail.candidate = true ∧ avail.job = true)) := by
  obtain ⟨ac, aj, acv, aann, aq⟩ := avail
  refine ⟨rfl, rfl, ?_, ?_⟩
  · cases ac <;> cases aj <;>
      simp [workerPipeline, generateSummary, uiStateFor, baseApisSuccess,
        interviewApiSuccess, firefliesApiSuccess, successEntry, pendingEntry,
        initialCSGState, hbase]
  · cases ac <;> cases aj <;> simp [workerPipeline]

theorem webhook_relay_equivalence_witness :
    (workerPipeline ⟨true, true, true, false, true⟩).isSome = true ∧
    (generateSummary "http://api" (uiStateFor ⟨true, true, true, false, true⟩ "c1" "j1")).2 ≠
      [] := by
  have h := webhook_relay_equivalence ⟨true, true, true, false, true⟩ "c1" "j1" "http://api"
    (by decide)
  have hw : (workerPipeline ⟨true, true, true, false, true⟩).isSome = true := by decide
  exact ⟨hw, h.2.2.1.mp hw⟩

theorem genChecks_iff (st : CSGState) :
    (baseApisSuccess st && interviewApiSuccess st && firefliesApiSuccess st) = true ↔
      (st.apiStatus.candidate.status = "success" ∧ st.apiStatus.job.status = "success" ∧
       (st.apiStatus.interview.status = "success" ∨ st.proceedWithoutInterview = true) ∧
       (st.includeFireflies = true → st.apiStatus.fireflies.status = "success")) := by
  unfold baseApisSuccess interviewApiSuccess firefliesApiSuccess
  cases hpw : st.proceedWithoutInterview <;> cases hif : st.includeFireflies <;>
    simp [and_assoc]

/-- C4 (amended): `generateSummary` sends a POST to `/api/generate-summary`
iff the candidate and job confirmations are `success`, the interview
confirmation is `success` or the proceed-without-interview switch is on,
the Fireflies confirmation is `success` whenever the include-Fireflies
switch is on, a summary prompt is selected, and — additionally — an email
template is selected whenever the create-email-draft switch is on; when
any of these fail, an error alert is shown and no request is sent
(assuming the API base URL is configured). -/
theorem generate_summary_precondition_amended (apiBase : String) (st : CSGState)
    (hbase : apiBase ≠ "") :
    ((generateSummary apiBase st).2 ≠ [] ↔
      claimedGenConditions st ∧ (st.createEmailDraft = true → st.selectedEmailPrompt ≠ "")) ∧
    (∀ r ∈ (generateSummary apiBase st).2, r.url = apiBase ++ "/api/generate-summary") ∧
    (¬(claimedGenConditions st ∧ (st.createEmailDraft = true → st.selectedEmailPrompt ≠ "")) →
      (generateSummary apiBase st).2 = [] ∧
      (generateSummary apiBase st).1.alert.showFlag = true ∧
      (generateSummary apiBase st).1.alert.type = "error") := by
  have hciff := genChecks_iff st
  unfold generateSummary claimedGenConditions
  rw [if_neg hbase]
  split_ifs with h1 h2 h3 hced
  · -- confirmation checks fail
    rw [Bool.not_eq_eq_eq_not, Bool.not_true] at h1
    have hP : ¬(st.apiStatus.candidate.status = "success" ∧
        st.apiStatus.job.status = "success" ∧
        (st.apiStatus.interview.status = "success" ∨ st.proceedWithoutInterview = true) ∧
        (st.includeFireflies = true → st.apiStatus.fireflies.status = "success")) := by
      intro hp
      rw [hciff.mpr hp] at h1
      exact Bool.true_eq_false.mp h1
    refine ⟨?_, by simp, fun _ => ⟨rfl, rfl, rfl⟩⟩
    simp only [ne_eq, not_true_eq_false, false_iff]
    rintro ⟨⟨hc, hj, hi, hf, _⟩, _⟩
    exact hP ⟨hc, hj, hi, hf⟩
  · -- no summary prompt selected
    have hp : st.selectedPrompt = "" := by simpa using h2
    refine ⟨?_, by simp, fun _ => ⟨rfl, rfl, rfl⟩⟩
    simp only [ne_eq, not_true_eq_false, false_iff]
    rintro ⟨⟨_, _, _, _, hpr⟩, _⟩
    exact hpr hp
  · -- email draft on but no email template
    have he : st.createEmailDraft = true ∧ st.selectedEmailPrompt = "" := by simpa using h3
    refine ⟨?_, by simp, fun _ => ⟨rfl, rfl, rfl⟩⟩
    simp only [ne_eq, not_true_eq_false, false_iff]
    rintro ⟨_, hem⟩
    exact hem he.1 he.2
  · -- all checks pass, email draft on: both POSTs are issued
    have h1' := (by simpa using h1 :
      (baseApisSuccess st = true ∧ interviewApiSuccess st = true) ∧ firefliesApiSuccess st = true)
    have hb : (baseApisSuccess st && interviewApiSuccess st && firefliesApiSuccess st) = true := by
      simp [h1'.1.1, h1'.1.2, h1'.2]
    have hP := hciff.mp hb
    have hpr : st.selectedPrompt ≠ "" := by
      intro hp; exact h2 (by simp [hp])
    have hem : st.createEmailDraft = true → st.selectedEmailPrompt ≠ "" := by
      intro hc he; exact h3 (by simp [hc, he])
    refine ⟨?_, ?_, ?_⟩
    · constructor
      · intro _
        exact ⟨⟨hP.1, hP.2.1, hP.2.2.1, hP.2.2.2, hpr⟩, hem⟩
      · intro _
        simp
    · intro r hr
      rcases List.mem_cons.mp hr with h | h
      · rw [h]
      · rcases List.mem_singleton.mp h with rfl
        rfl
    · intro hn
      exact absurd ⟨⟨hP.1, hP.2.1, hP.2.2.1, hP.2.2.2, hpr⟩, hem⟩ hn
  · -- all checks pass, email draft off: the summary POST is issued
    have h1' := (by simpa using h1 :
      (baseApisSuccess st = true ∧ interviewApiSuccess st = true) ∧ firefliesApiSuccess st = true)
    have hb : (baseApisSuccess st && interviewApiSuccess st && firefliesApiSuccess st) = true := by
      simp [h1'.1.1, h1'.1.2, h1'.2]
    have hP := hciff.mp hb
    have hpr : st.selectedPrompt ≠ "" := by
      intro hp; exact h2 (by simp [hp])
    have hem : st.createEmailDraft = true → st.selectedEmailPrompt ≠ "" := by
      intro hc he; exact h3 (by simp [hc, he])
    refine ⟨?_, ?_, ?_⟩
    · constructor
      · intro _
        exact ⟨⟨hP.1, hP.2.1, hP.2.2.1, hP.2.2.2, hpr⟩, hem⟩
      · intro _
        simp
    · intro r hr
      rcases List.mem_singleton.mp hr with rfl
      rfl
    · intro hn
      exact absurd ⟨⟨hP.1, hP.2.1, hP.2.2.1, hP.2.2.2, hpr⟩, hem⟩ hn

/-- C4 counterexample: a state in which every condition the claim lists
holds, yet `generateSummary` sends no request (and shows an error alert)
because the create-email-draft switch is on with no email template
selected — so the claimed "if and only if" is false. -/
theorem generate_summary_precondition_counterexample :
    claimedGenConditions csgEmailGapState ∧
    csgEmailGapState.createEmailDraft = true ∧
    (generateSummary "http://api" csgEmailGapState).2 = [] ∧
    (generateSummary "http://api" csgEmailGapState).1.alert.type = "error" := by
  refine ⟨⟨rfl, rfl, Or.inl rfl, ?_, ?_⟩, rfl, rfl, rfl⟩
  · intro h; exact absurd h (by decide)
  · decide

theorem generate_summary_precondition_amended_witness :
    (generateSummary "http://api" csgReadyState).2 ≠ [] :=
  (generate_summary_precondition_amended "http://api" csgReadyState (by decide)).1.mpr
    ⟨⟨rfl, rfl, Or.inl rfl, fun h => absurd h (by decide), by decide⟩,
     fun h => absurd h (by decide)⟩

/-- C6: a POST to `/api/push-to-recruitcrm` carrying `candidate_slug` and
`html_summary` is made only when a generated summary exists for that
candidate — in the single flow `generatedHtml` non-empty and
`candidate_slug` present, in the bulk flow the job-status document holding
a (non-empty) summary for that slug — and when the summary is missing an
error alert is shown and no request is made. -/
theorem push_to_recruitcrm_precondition (apiBase slug : String) (st : CSGState)
    (bst : BGState) (hbase : apiBase ≠ "") :
    ((pushToRecruitCRM apiBase st).2 ≠ [] ↔
      st.generatedHtml ≠ "" ∧ st.formData.candidate_slug ≠ "") ∧
    (∀ r ∈ (pushToRecruitCRM apiBase st).2,
      r.url = apiBase ++ "/api/push-to-recruitcrm" ∧
      r.candidate_slug = st.formData.candidate_slug ∧
      r.html_summary = st.generatedHtml) ∧
    ((st.generatedHtml = "" ∨ st.formData.candidate_slug = "") →
      (pushToRecruitCRM apiBase st).2 = [] ∧
      (pushToRecruitCRM apiBase st).1.alert.showFlag = true ∧
      (pushToRecruitCRM apiBase st).1.alert.type = "error") ∧
    ((handleSendToRecruitCRM apiBase slug bst).2 ≠ [] ↔
      ∃ s, bulkSummaryFor bst slug = some s ∧ s ≠ "") ∧
    (∀ r ∈ (handleSendToRecruitCRM apiBase slug bst).2,
      r.url = apiBase ++ "/api/push-to-recruitcrm" ∧
      r.candidate_slug = slug ∧
      bulkSummaryFor bst slug = some r.html_summary) ∧
    ((∀ s, bulkSummaryFor bst slug = some s → s = "") →
      (handleSendToRecruitCRM apiBase slug bst).2 = [] ∧
      (handleSendToRecruitCRM apiBase slug bst).1.alert.showFlag = true ∧
      (handleSendToRecruitCRM apiBase slug bst).1.alert.type = "error") := by
  refine ⟨?_, ?_, ?_, ?_, ?_, ?_⟩
  · unfold pushToRecruitCRM
    rw [if_neg hbase]
    split_ifs with h1
    · have h1' : st.generatedHtml = "" ∨ st.formData.candidate_slug = "" := by simpa using h1
      simp only [ne_eq, not_true_eq_false, false_iff]
      rintro ⟨hg, hc⟩
      rcases h1' with h | h
      exacts [hg h, hc h]
    · have h1' : st.generatedHtml ≠ "" ∧ st.formData.candidate_slug ≠ "" := by
        have := (by simpa using h1 :
          ¬(st.generatedHtml = "" ∨ st.formData.candidate_slug = ""))
        push_neg at this
        exact this
      constructor
      · intro _; exact h1'
      · intro _; simp
  · unfold pushToRecruitCRM
    rw [if_neg hbase]
    split_ifs with h1
    · simp
    · intro r hr
      rcases List.mem_singleton.mp hr with rfl
      exact ⟨rfl, rfl, rfl⟩
  · intro hmiss
    unfold pushToRecruitCRM
    rw [if_neg hbase]
    split_ifs with h1
    · exact ⟨rfl, rfl, rfl⟩
    · exact absurd (by rcases hmiss with h | h <;> simp [h]) h1
  · unfold handleSendToRecruitCRM
    cases hs : bulkSummaryFor bst slug with
    | none => simp [hs]
    | some s =>
      simp only [hs]
      split_ifs with he
      · simp [he]
      · constructor
        · intro _; exact ⟨s, rfl, he⟩
        · intro _; simp
  · unfold handleSendToRecruitCRM
    cases hs : bulkSummaryFor bst slug with
    | none => simp [hs]
    | some s =>
      simp only [hs]
      split_ifs with he
      · simp
      · intro r hr
        rcases List.mem_singleton.mp hr with rfl
        exact ⟨rfl, rfl, rfl⟩
  · intro hall
    unfold handleSendToRecruitCRM
    cases hs : bulkSummaryFor bst slug with
    | none => simp [hs, mkAlert]
    | some s =>
      simp only [hs]
      split_ifs with he
      · simp [mkAlert]
      · exact absurd (hall s hs) he

theorem runMCGPoll_inactive (a id : String) (st : MCGBulkState) (t : Nat)
    (l : List PollOutcome) (h : st.active = false) :
    runMCGPoll a id st t l = (st, []) := by
  cases l <;> simp [runMCGPoll, h]

theorem runBGPoll_inactive (a id : String) (st : BGState) (t : Nat)
    (l : List PollOutcome) (h : bgIntervalActive st = false) :
    runBGPoll a id st t l = (st, []) := by
  cases l <;> simp [runBGPoll, h]

theorem poll_times_shift (u : String) (t n : Nat) :
    (List.range (n + 1)).map (fun k => (5000 * (t + 1 + k), u)) =
      (5000 * (t + 1), u) ::
        (List.range n).map (fun k => (5000 * (t + 1 + 1 + k), u)) := by
  rw [List.range_succ_eq_map, List.map_cons, List.map_map]
  refine congrArg₂ List.cons (by norm_num) ?_
  apply List.map_congr_left
  intro k _
  simp only [Function.comp_apply, Prod.mk.injEq]
  refine ⟨by omega, by trivial⟩

theorem poll_times_zero (u : String) (n : Nat) :
    (List.range n).map (fun k => (5000 * (0 + 1 + k), u)) =
      (List.range n).map (fun k => (5000 * (k + 1), u)) := by
  apply List.map_congr_left
  intro k _
  simp only [Prod.mk.injEq]
  refine ⟨by omega, by trivial⟩

theorem isFinished_processing : isFinished "processing" = false := by decide

theorem mcgPollStep_processing_active (st : MCGBulkState) (d : JobStatusDoc)
    (hd : d.status = "processing") :
    (mcgPollStep st (PollOutcome.ok d)).active = st.active := by
  simp [mcgPollStep, hd, isFinished_processing]

/-- After processing-only outcomes and then a stopping outcome, the
MultipleCandidatesGenerator poller has issued exactly one request per
outcome consumed, 5 seconds apart, and its final state is the stopping
step applied to some still-active state. -/
theorem runMCGPoll_stops (a id : String) (pre : List PollOutcome) (o : PollOutcome)
    (rest : List PollOutcome) (hpre : ∀ x ∈ pre, processingOutcome x)
    (hstop : ∀ s : MCGBulkState, (mcgPollStep s o).active = false) :
    ∀ (st : MCGBulkState) (t : Nat), st.active = true →
      ∃ st', st'.active = true ∧
        runMCGPoll a id st t (pre ++ o :: rest) =
          (mcgPollStep st' o,
           (List.range (pre.length + 1)).map
             (fun k => (5000 * (t + 1 + k), pollUrl a id))) := by
  induction pre with
  | nil =>
    intro st t hact
    refine ⟨st, hact, ?_⟩
    simp only [List.nil_append, runMCGPoll, hact, if_true]
    rw [runMCGPoll_inactive a id _ _ rest (hstop st)]
    rw [poll_times_shift]
    simp
  | cons x pre ih =>
    intro st t hact
    obtain ⟨d, rfl, hd⟩ := hpre x (List.mem_cons_self x pre)
    have hstep : (mcgPollStep st (PollOutcome.ok d)).active = true := by
      rw [mcgPollStep_processing_active st d hd]; exact hact
    obtain ⟨st', hst', hrun⟩ :=
      ih (fun y hy => hpre y (List.mem_cons_of_mem _ hy)) (mcgPollStep st (PollOutcome.ok d))
        (t + 1) hstep
    refine ⟨st', hst', ?_⟩
    simp only [List.cons_append, runMCGPoll, hact, if_true, List.append_eq, hrun]
    conv_rhs => rw [List.length_cons, poll_times_shift]

theorem bgPollStep_jobId (st : BGState) (o : PollOutcome) :
    (bgPollStep st o).jobId = st.jobId := by
  cases o with
  | ok d =>
    simp only [bgPollStep]
    split <;> rfl
  | netError => rfl
  | notOk => rfl

theorem bgPollStep_processing_active (st : BGState) (d : JobStatusDoc)
    (hd : d.status = "processing") (hact : bgIntervalActive st = true) :
    bgIntervalActive (bgPollStep st (PollOutcome.ok d)) = true := by
  have hact' : st.jobId.isSome = true := by
    have h := hact
    unfold bgIntervalActive at h
    rw [Bool.and_eq_true] at h
    exact h.1
  simp [bgPollStep, hd, isFinished_processing, bgIntervalActive, hact']

/-- BulkGenerator analogue of `runMCGPoll_stops`. -/
theorem runBGPoll_stops (a id : String) (pre : List PollOutcome) (o : PollOutcome)
    (rest : List PollOutcome) (hpre : ∀ x ∈ pre, processingOutcome x)
    (hstop : ∀ s : BGState, bgIntervalActive (bgPollStep s o) = false) :
    ∀ (st : BGState) (t : Nat), bgIntervalActive st = true →
      ∃ st', bgIntervalActive st' = true ∧
        runBGPoll a id st t (pre ++ o :: rest) =
          (bgPollStep st' o,
           (List.range (pre.length + 1)).map
             (fun k => (5000 * (t + 1 + k), pollUrl a id))) := by
  induction pre with
  | nil =>
    intro st t hact
    refine ⟨st, hact, ?_⟩
    simp only [List.nil_append, runBGPoll, hact, if_true]
    rw [runBGPoll_inactive a id _ _ rest (hstop st)]
    rw [poll_times_shift]
    simp
  | cons x pre ih =>
    intro st t hact
    obtain ⟨d, rfl, hd⟩ := hpre x (List.mem_cons_self x pre)
    have hstep : bgIntervalActive (bgPollStep st (PollOutcome.ok d)) = true :=
      bgPollStep_processing_active st d hd hact
    obtain ⟨st', hst', hrun⟩ :=
      ih (fun y hy => hpre y (List.mem_cons_of_mem _ hy)) (bgPollStep st (PollOutcome.ok d))
        (t + 1) hstep
    refine ⟨st', hst', ?_⟩
    simp only [List.cons_append, runBGPoll, hact, if_true, List.append_eq, hrun]
    conv_rhs => rw [List.length_cons, poll_times_shift]

/-- C1: for every started bulk job, both client pollers issue
`GET /api/bulk-job-status/{job_id}` requests on a repeating 5-second
schedule, and once a poll response carries status `complete` or `failed`
the interval is cleared: exactly one request per poll up to and including
the finishing one, and none afterwards. -/
theorem bulk_poller_schedule_and_termination (apiBase id : String)
    (pre rest : List PollOutcome) (d : JobStatusDoc)
    (hpre : ∀ o ∈ pre, processingOutcome o) (hfin : isFinished d.status = true) :
    ((runMCGPoll apiBase id mcgPollInit 0 (pre ++ PollOutcome.ok d :: rest)).2 =
      (List.range (pre.length + 1)).map (fun k => (5000 * (k + 1), pollUrl apiBase id)) ∧
     (runMCGPoll apiBase id mcgPollInit 0 (pre ++ PollOutcome.ok d :: rest)).1.active = false) ∧
    ((runBGPoll apiBase id (bgPollInit id) 0 (pre ++ PollOutcome.ok d :: rest)).2 =
      (List.range (pre.length + 1)).map (fun k => (5000 * (k + 1), pollUrl apiBase id)) ∧
     bgIntervalActive
       (runBGPoll apiBase id (bgPollInit id) 0 (pre ++ PollOutcome.ok d :: rest)).1 = false) := by
  have hstopM : ∀ s : MCGBulkState, (mcgPollStep s (PollOutcome.ok d)).active = false := by
    intro s; simp [mcgPollStep, hfin]
  have hds : (d.status == "processing") = false := by
    have h2 : d.status = "complete" ∨ d.status = "failed" := by
      simpa [isFinished] using hfin
    rcases h2 with h | h <;> (rw [h]; decide)
  have hstopB : ∀ s : BGState, bgIntervalActive (bgPollStep s (PollOutcome.ok d)) = false := by
    intro s
    simp [bgPollStep, hfin, bgIntervalActive, hds]
  obtain ⟨stM, hstM, hrunM⟩ :=
    runMCGPoll_stops apiBase id pre (PollOutcome.ok d) rest hpre hstopM mcgPollInit 0 rfl
  obtain ⟨stB, hstB, hrunB⟩ :=
    runBGPoll_stops apiBase id pre (PollOutcome.ok d) rest hpre hstopB (bgPollInit id) 0 rfl
  rw [hrunM, hrunB]
  exact ⟨⟨poll_times_zero (pollUrl apiBase id) (pre.length + 1), hstopM stM⟩,
         ⟨poll_times_zero (pollUrl apiBase id) (pre.length + 1), hstopB stB⟩⟩

theorem jsNumObjGet_nil (k : Nat) : jsNumObjGet [] k = none := rfl

theorem jsNumObjGet_cons (p : Nat × Option ValEntry) (rest : List (Nat × Option ValEntry))
    (k : Nat) :
    jsNumObjGet (p :: rest) k = if p.1 == k then p.2 else jsNumObjGet rest k := by
  unfold jsNumObjGet
  rw [List.find?_cons]
  cases hp : (p.1 == k) <;> simp [hp]

theorem jsNumObjGet_set_self (m : List (Nat × Option ValEntry)) (k : Nat)
    (v : Option ValEntry) : jsNumObjGet (jsNumObjSet m k v) k = v := by
  induction m with
  | nil => simp [jsNumObjSet, jsNumObjGet_cons, jsNumObjGet_nil]
  | cons p rest ih =>
    cases h : (p.1 == k) with
    | true => simp [jsNumObjSet, h, jsNumObjGet_cons]
    | false => simp [jsNumObjSet, h, jsNumObjGet_cons, ih]

theorem jsNumObjGet_set_other (m : List (Nat × Option ValEntry)) (k j : Nat)
    (v : Option ValEntry) (hj : j ≠ k) :
    jsNumObjGet (jsNumObjSet m k v) j = jsNumObjGet m j := by
  have hkj : (k == j) = false := by
    simp only [beq_eq_false_iff_ne, ne_eq]
    omega
  induction m with
  | nil =>
    simp [jsNumObjSet, jsNumObjGet_cons, jsNumObjGet_nil, hkj]
  | cons p rest ih =>
    cases h : (p.1 == k) with
    | true =>
      have hp1 : p.1 = k := beq_iff_eq.mp h
      have hpj : (p.1 == j) = false := by
        simp only [beq_eq_false_iff_ne, ne_eq, hp1]
        omega
      simp [jsNumObjSet, h, jsNumObjGet_cons, hkj, hpj]
    | false =>
      simp [jsNumObjSet, h, jsNumObjGet_cons, ih]

/-- C9: `handleCandidateUrlChange(index, value)` replaces only the
candidate URL at the given index, clears the validation entry for that
index only when one was present, and leaves every other URL entry,
every other index's validation status, and the rest of the form data
unchanged. -/
theorem url_edit_frame_property (index : Nat) (value : String) (st : MCGState)
    (h : index < st.formData.candidate_urls.length) :
    ((handleCandidateUrlChange index value st).formData.candidate_urls[index]? = some value) ∧
    (∀ j, j ≠ index →
      (handleCandidateUrlChange index value st).formData.candidate_urls[j]? =
        st.formData.candidate_urls[j]?) ∧
    ((handleCandidateUrlChange index value st).formData.candidate_urls.length =
      st.formData.candidate_urls.length) ∧
    (jsNumObjGet (handleCandidateUrlChange index value st).candidateValidation index = none) ∧
    (∀ j, j ≠ index →
      jsNumObjGet (handleCandidateUrlChange index value st).candidateValidation j =
        jsNumObjGet st.candidateValidation j) ∧
    (jsNumObjGet st.candidateValidation index = none →
      (handleCandidateUrlChange index value st).candidateValidation =
        st.candidateValidation) ∧
    ((handleCandidateUrlChange index value st).formData.client_name =
        st.formData.client_name ∧
     (handleCandidateUrlChange index value st).formData.job_url = st.formData.job_url ∧
     (handleCandidateUrlChange index value st).formData.preferred_candidate =
        st.formData.preferred_candidate ∧
     (handleCandidateUrlChange index value st).formData.additional_context =
        st.formData.additional_context ∧
     (handleCandidateUrlChange index value st).formData.prompt_type =
        st.formData.prompt_type) := by
  unfold handleCandidateUrlChange
  split_ifs with hv
  · refine ⟨List.getElem?_set_self h, ?_, List.length_set .., ?_, ?_, ?_, rfl, rfl, rfl, rfl, rfl⟩
    · intro j hj
      exact List.getElem?_set_ne (fun hh => hj hh.symm)
    · exact jsNumObjGet_set_self st.candidateValidation index none
    · intro j hj
      exact jsNumObjGet_set_other st.candidateValidation index j none hj
    · intro hnone
      rw [hnone] at hv
      simp at hv
  · refine ⟨List.getElem?_set_self h, ?_, List.length_set .., ?_, ?_, ?_, rfl, rfl, rfl, rfl, rfl⟩
    · intro j hj
      exact List.getElem?_set_ne (fun hh => hj hh.symm)
    · simpa using hv
    · intro j hj
      rfl
    · intro _
      rfl

theorem url_edit_frame_property_witness :
    ((handleCandidateUrlChange 1 "http://x"
        ⟨⟨["a", "b", "c"], "", "", "", "", ""⟩,
         [(1, some ⟨"valid", "Ann"⟩)]⟩).formData.candidate_urls[1]? = some "http://x") ∧
    (jsNumObjGet (handleCandidateUrlChange 1 "http://x"
        ⟨⟨["a", "b", "c"], "", "", "", "", ""⟩,
         [(1, some ⟨"valid", "Ann"⟩)]⟩).candidateValidation 1 = none) := by
  have hth := url_edit_frame_property 1 "http://x"
    ⟨⟨["a", "b", "c"], "", "", "", "", ""⟩, [(1, some ⟨"valid", "Ann"⟩)]⟩ (by decide)
  exact ⟨hth.1, hth.2.2.2.1⟩

theorem jsObjSet_values_true (m : List (String × Bool)) (k : String)
    (hall : ∀ p ∈ m, p.2 = true) :
    ∀ p ∈ jsObjSet m k true, p.2 = true := by
  intro p hp
  unfold jsObjSet at hp
  split at hp
  · obtain ⟨q, hq, rfl⟩ := List.mem_map.mp hp
    split
    · rfl
    · exact hall q hq
  · rcases List.mem_append.mp hp with h | h
    · exact hall p h
    · rcases List.mem_singleton.mp h with rfl
      rfl

theorem keysOf_jsObjSet_hit (m : List (String × Bool)) (k : String) (v : Bool)
    (hex : m.any (fun p => p.1 == k) = true) :
    keysOf (jsObjSet m k v) = keysOf m := by
  unfold jsObjSet
  rw [if_pos hex]
  unfold keysOf
  rw [List.map_map]
  apply List.map_congr_left
  intro q hq
  simp only [Function.comp_apply]
  split
  · next h => exact (beq_iff_eq.mp h).symm
  · rfl

theorem keysOf_jsObjSet_miss (m : List (String × Bool)) (k : String) (v : Bool)
    (hnex : m.any (fun p => p.1 == k) = false) :
    keysOf (jsObjSet m k v) = keysOf m ++ [k] := by
  unfold jsObjSet
  rw [if_neg (by simp [hnex])]
  unfold keysOf
  simp

theorem any_key_iff (m : List (String × Bool)) (k : String) :
    m.any (fun p => p.1 == k) = true ↔ k ∈ keysOf m := by
  rw [List.any_eq_true]
  unfold keysOf
  constructor
  · rintro ⟨p, hp, hpk⟩
    exact List.mem_map.mpr ⟨p, hp, beq_iff_eq.mp hpk⟩
  · intro h
    obtain ⟨p, hp, rfl⟩ := List.mem_map.mp h
    exact ⟨p, hp, beq_self_eq_true _⟩

theorem keysOf_jsObjSet_nodup (m : List (String × Bool)) (k : String) (v : Bool)
    (hnd : (keysOf m).Nodup) : (keysOf (jsObjSet m k v)).Nodup := by
  cases hex : m.any (fun p => p.1 == k) with
  | true => rw [keysOf_jsObjSet_hit m k v hex]; exact hnd
  | false =>
    rw [keysOf_jsObjSet_miss m k v hex]
    rw [List.nodup_append]
    refine ⟨hnd, List.nodup_singleton k, ?_⟩
    intro a ha hb
    rcases List.mem_singleton.mp hb with rfl
    have : m.any (fun p => p.1 == a) = true := (any_key_iff m a).mpr ha
    rw [hex] at this
    exact Bool.false_ne_true this

theorem keysOf_jsObjSet_mem (m : List (String × Bool)) (k : String) (v : Bool) (a : String) :
    a ∈ keysOf (jsObjSet m k v) ↔ a ∈ keysOf m ∨ a = k := by
  cases hex : m.any (fun p => p.1 == k) with
  | true =>
    rw [keysOf_jsObjSet_hit m k v hex]
    constructor
    · exact Or.inl
    · rintro (h | rfl)
      · exact h
      · exact (any_key_iff m a).mp hex
  | false =>
    rw [keysOf_jsObjSet_miss m k v hex]
    simp

theorem buildSelection_fold (cands : List Candidate) :
    ∀ m : List (String × Bool),
      (∀ p ∈ m, p.2 = true) → (keysOf m).Nodup →
      (∀ p ∈ cands.foldl (fun acc c => jsObjSet acc c.slug true) m, p.2 = true) ∧
      (keysOf (cands.foldl (fun acc c => jsObjSet acc c.slug true) m)).Nodup ∧
      (∀ a, a ∈ keysOf (cands.foldl (fun acc c => jsObjSet acc c.slug true) m) ↔
        a ∈ keysOf m ∨ a ∈ cands.map Candidate.slug) := by
  induction cands with
  | nil =>
    intro m h1 h2
    exact ⟨h1, h2, fun a => by simp⟩
  | cons c cands ih =>
    intro m h1 h2
    have h1' := jsObjSet_values_true m c.slug h1
    have h2' := keysOf_jsObjSet_nodup m c.slug true h2
    obtain ⟨g1, g2, g3⟩ := ih (jsObjSet m c.slug true) h1' h2'
    rw [List.foldl_cons]
    refine ⟨g1, g2, ?_⟩
    intro a
    rw [g3 a, keysOf_jsObjSet_mem]
    simp only [List.map_cons, List.mem_cons]
    tauto

theorem jsObjGet_true (m : List (String × Bool)) (k : String)
    (hall : ∀ p ∈ m, p.2 = true) (hk : k ∈ keysOf m) :
    jsObjGet m k = some true := by
  have hsome : (m.find? (fun p => p.1 == k)).isSome := by
    rw [List.find?_isSome]
    obtain ⟨p, hp, rfl⟩ := List.mem_map.mp hk
    exact ⟨p, hp, beq_self_eq_true _⟩
  obtain ⟨q, hq⟩ := Option.isSome_iff_exists.mp hsome
  unfold jsObjGet
  rw [hq]
  simp [hall q (List.mem_of_find?_eq_some hq)]

theorem selectedCount_eq_length (m : List (String × Bool))
    (hall : ∀ p ∈ m, p.2 = true) : selectedCount m = m.length := by
  unfold selectedCount
  rw [List.filter_eq_self.mpr, List.length_map]
  intro b hb
  obtain ⟨p, hp, rfl⟩ := List.mem_map.mp hb
  exact hall p hp

/-- C8 (amended): whenever the candidate list for a stage is fetched,
every returned candidate's slug is mapped to `true`, and the initially
selected count equals the number of distinct candidate slugs — which is
the number of fetched candidates exactly when the slugs are distinct. -/
theorem default_selection_invariant_amended (cands : List Candidate) :
    (∀ c ∈ cands, jsObjGet (buildSelection cands) c.slug = some true) ∧
    selectedCount (buildSelection cands) = (cands.map Candidate.slug).dedup.length ∧
    ((cands.map Candidate.slug).Nodup → selectedCount (buildSelection cands) = cands.length) := by
  unfold buildSelection
  obtain ⟨h1, h2, h3⟩ := buildSelection_fold cands [] (by simp) (by simp [keysOf])
  set F := cands.foldl (fun acc c => jsObjSet acc c.slug true) [] with hF
  have hmem : ∀ a, a ∈ keysOf F ↔ a ∈ cands.map Candidate.slug := by
    intro a
    rw [h3 a]
    simp [keysOf]
  have hfin : (keysOf F).toFinset = (cands.map Candidate.slug).toFinset := by
    apply Finset.ext
    intro a
    rw [List.mem_toFinset, List.mem_toFinset, hmem a]
  have hcount : selectedCount F = (cands.map Candidate.slug).dedup.length := by
    calc selectedCount F = F.length := selectedCount_eq_length F h1
    _ = (keysOf F).length := (List.length_map _ _).symm
    _ = (keysOf F).dedup.length := by rw [h2.dedup]
    _ = (keysOf F).toFinset.card := (List.card_toFinset _).symm
    _ = (cands.map Candidate.slug).toFinset.card := by rw [hfin]
    _ = (cands.map Candidate.slug).dedup.length := List.card_toFinset _
  refine ⟨?_, hcount, ?_⟩
  · intro c hc
    exact jsObjGet_true F c.slug h1 ((hmem c.slug).mpr (List.mem_map_of_mem _ hc))
  · intro hnd
    rw [hcount, hnd.dedup, List.length_map]

/-- C8 counterexample: with two fetched candidates sharing a slug, every
slug maps to `true` but the initially selected count is 1, not 2 — the
claimed equality with the number of fetched candidates fails. -/
theorem default_selection_invariant_counterexample :
    selectedCount (buildSelection [⟨"a", "Ann"⟩, ⟨"a", "Bob"⟩]) = 1 ∧
    ([⟨"a", "Ann"⟩, ⟨"a", "Bob"⟩] : List Candidate).length = 2 := by
  decide

theorem default_selection_invariant_amended_witness :
    selectedCount (buildSelection [⟨"a", "Ann"⟩, ⟨"b", "Bob"⟩]) =
      ([⟨"a", "Ann"⟩, ⟨"b", "Bob"⟩] : List Candidate).length :=
  (default_selection_invariant_amended [⟨"a", "Ann"⟩, ⟨"b", "Bob"⟩]).2.2 (by decide)

theorem bulk_poller_schedule_and_termination_witness :
    ((runMCGPoll "" "j1" mcgPollInit 0
        ([PollOutcome.ok procDoc] ++ PollOutcome.ok doneDoc :: [])).2 =
      (List.range ([PollOutcome.ok procDoc].length + 1)).map
        (fun k => (5000 * (k + 1), pollUrl "" "j1")) ∧
     (runMCGPoll "" "j1" mcgPollInit 0
        ([PollOutcome.ok procDoc] ++ PollOutcome.ok doneDoc :: [])).1.active = false) ∧
    ((runBGPoll "" "j1" (bgPollInit "j1") 0
        ([PollOutcome.ok procDoc] ++ PollOutcome.ok doneDoc :: [])).2 =
      (List.range ([PollOutcome.ok procDoc].length + 1)).map
        (fun k => (5000 * (k + 1), pollUrl "" "j1")) ∧
     bgIntervalActive
       (runBGPoll "" "j1" (bgPollInit "j1") 0
         ([PollOutcome.ok procDoc] ++ PollOutcome.ok doneDoc :: [])).1 = false) :=
  bulk_poller_schedule_and_termination "" "j1" [PollOutcome.ok procDoc] [] doneDoc
    (by
      intro o ho
      rcases List.mem_singleton.mp ho with rfl
      exact ⟨procDoc, rfl, rfl⟩)
    (by decide)

theorem runBGPoll_last (a id : String) (pre : List PollOutcome) (o : PollOutcome)
    (hpre : ∀ x ∈ pre, processingOutcome x) :
    ∀ (st : BGState) (t : Nat), bgIntervalActive st = true →
      ∃ st', bgIntervalActive st' = true ∧
        runBGPoll a id st t (pre ++ [o]) =
          (bgPollStep st' o,
           (List.range (pre.length + 1)).map
             (fun k => (5000 * (t + 1 + k), pollUrl a id))) := by
  induction pre with
  | nil =>
    intro st t hact
    refine ⟨st, hact, ?_⟩
    simp only [List.nil_append, runBGPoll, hact, if_true]
    rw [poll_times_shift]
    simp [runBGPoll]
  | cons x pre ih =>
    intro st t hact
    obtain ⟨d, rfl, hd⟩ := hpre x (List.mem_cons_self x pre)
    have hstep : bgIntervalActive (bgPollStep st (PollOutcome.ok d)) = true :=
      bgPollStep_processing_active st d hd hact
    obtain ⟨st', hst', hrun⟩ :=
      ih (fun y hy => hpre y (List.mem_cons_of_mem _ hy)) (bgPollStep st (PollOutcome.ok d))
        (t + 1) hstep
    refine ⟨st', hst', ?_⟩
    simp only [List.cons_append, runBGPoll, hact, if_true, List.append_eq, hrun]
    conv_rhs => rw [List.length_cons, poll_times_shift]

theorem bgPollStep_fail (st : BGState) (o : PollOutcome) (hfail : failedOutcome o) :
    (bgPollStep st o).alert = mkAlert "error" "Polling failed. Check connection." ∧
    (bgPollStep st o).isProcessing = false ∧
    (bgPollStep st o).jobStatus = st.jobStatus ∧
    (bgPollStep st o).jobId = st.jobId := by
  rcases hfail with rfl | rfl <;> exact ⟨rfl, rfl, rfl, rfl⟩

theorem bgIntervalActive_fail (st : BGState) (o : PollOutcome) (hfail : failedOutcome o) :
    bgIntervalActive (bgPollStep st o) = bgIntervalActive st := by
  rcases hfail with rfl | rfl <;> rfl

theorem runBGPoll_cons_length (a id : String) (st : BGState) (t : Nat)
    (x : PollOutcome) (l : List PollOutcome) (h : bgIntervalActive st = true) :
    1 ≤ (runBGPoll a id st t (x :: l)).2.length := by
  simp [runBGPoll, h]

theorem runBGPoll_fail_continues (a id : String) (pre : List PollOutcome) (o r : PollOutcome)
    (rest : List PollOutcome) (hpre : ∀ x ∈ pre, processingOutcome x)
    (hfail : failedOutcome o) :
    ∀ (st : BGState) (t : Nat), bgIntervalActive st = true →
      pre.length + 2 ≤ (runBGPoll a id st t (pre ++ o :: r :: rest)).2.length := by
  induction pre with
  | nil =>
    intro st t hact
    have hact' : bgIntervalActive (bgPollStep st o) = true := by
      rw [bgIntervalActive_fail st o hfail]; exact hact
    have h1 := runBGPoll_cons_length a id (bgPollStep st o) (t + 1) r rest hact'
    simp only [List.nil_append, List.length_nil]
    rw [runBGPoll, if_pos hact]
    simp only [List.length_cons]
    omega
  | cons x pre ih =>
    intro st t hact
    obtain ⟨d, rfl, hd⟩ := hpre x (List.mem_cons_self x pre)
    have hstep : bgIntervalActive (bgPollStep st (PollOutcome.ok d)) = true :=
      bgPollStep_processing_active st d hd hact
    have h1 := ih (fun y hy => hpre y (List.mem_cons_of_mem _ hy))
      (bgPollStep st (PollOutcome.ok d)) (t + 1) hstep
    rw [List.cons_append, runBGPoll, if_pos hact]
    simp only [List.length_cons]
    omega

/-- C2 (amended): the MultipleCandidatesGenerator poller adds no retry —
on a failed poll attempt it clears its interval (no subsequent status
request) and surfaces an error alert.  The BulkGenerator poller surfaces
an error alert and clears the processing flag on a failed attempt, but
does not clear its interval: the job status is unchanged, the effect
guard stays true, and when further ticks follow, further status requests
are issued. -/
theorem bulk_poller_failure_handling_amended (apiBase id : String)
    (pre rest : List PollOutcome) (o : PollOutcome)
    (hpre : ∀ x ∈ pre, processingOutcome x) (hfail : failedOutcome o) :
    ((runMCGPoll apiBase id mcgPollInit 0 (pre ++ o :: rest)).2.length = pre.length + 1 ∧
     (runMCGPoll apiBase id mcgPollInit 0 (pre ++ o :: rest)).1.active = false ∧
     (runMCGPoll apiBase id mcgPollInit 0 (pre ++ o :: rest)).1.alert.showFlag = true ∧
     (runMCGPoll apiBase id mcgPollInit 0 (pre ++ o :: rest)).1.alert.type = "error") ∧
    ((runBGPoll apiBase id (bgPollInit id) 0 (pre ++ [o])).1.alert =
       mkAlert "error" "Polling failed. Check connection." ∧
     (runBGPoll apiBase id (bgPollInit id) 0 (pre ++ [o])).1.isProcessing = false ∧
     bgIntervalActive (runBGPoll apiBase id (bgPollInit id) 0 (pre ++ [o])).1 = true) ∧
    (rest ≠ [] →
      pre.length + 2 ≤ (runBGPoll apiBase id (bgPollInit id) 0 (pre ++ o :: rest)).2.length) := by
  have hstopM : ∀ s : MCGBulkState, (mcgPollStep s o).active = false := by
    rcases hfail with rfl | rfl <;> intro s <;> rfl
  obtain ⟨stM, hstM, hrunM⟩ :=
    runMCGPoll_stops apiBase id pre o rest hpre hstopM mcgPollInit 0 rfl
  obtain ⟨stB, hstB, hrunB⟩ :=
    runBGPoll_last apiBase id pre o hpre (bgPollInit id) 0 rfl
  refine ⟨?_, ?_, ?_⟩
  · rw [hrunM]
    refine ⟨by simp, hstopM stM, ?_, ?_⟩ <;>
      rcases hfail with rfl | rfl <;> rfl
  · rw [hrunB]
    refine ⟨(bgPollStep_fail stB o hfail).1, (bgPollStep_fail stB o hfail).2.1, ?_⟩
    rw [bgIntervalActive_fail stB o hfail]
    exact hstB
  · intro hrest
    cases rest with
    | nil => exact absurd rfl hrest
    | cons r rest' =>
      exact runBGPoll_fail_continues apiBase id pre o r rest' hpre hfail (bgPollInit id) 0 rfl

/-- C2 counterexample: starting BulkGenerator's poller on a just-started
job, the first poll attempt throws a network error, yet a second status
request is still issued on the next tick — the claim that a failed poll
attempt stops the interval and that no subsequent status request is made
is false for this poller. -/
theorem bulk_poller_failure_handling_counterexample :
    failedOutcome PollOutcome.netError ∧
    (runBGPoll "" "j1" (bgPollInit "j1") 0
      [PollOutcome.netError, PollOutcome.ok procDoc]).2.length = 2 := by
  exact ⟨Or.inl rfl, rfl⟩

theorem bulk_poller_failure_handling_amended_witness :
    ((runMCGPoll "" "j1" mcgPollInit 0
        ([PollOutcome.ok procDoc] ++ PollOutcome.netError :: [PollOutcome.ok procDoc])).2.length =
        [PollOutcome.ok procDoc].length + 1 ∧
     (runMCGPoll "" "j1" mcgPollInit 0
        ([PollOutcome.ok procDoc] ++ PollOutcome.netError :: [PollOutcome.ok procDoc])).1.active =
        false ∧
     (runMCGPoll "" "j1" mcgPollInit 0
        ([PollOutcome.ok procDoc] ++
          PollOutcome.netError :: [PollOutcome.ok procDoc])).1.alert.showFlag = true ∧
     (runMCGPoll "" "j1" mcgPollInit 0
        ([PollOutcome.ok procDoc] ++
          PollOutcome.netError :: [PollOutcome.ok procDoc])).1.alert.type = "error") ∧
    ((runBGPoll "" "j1" (bgPollInit "j1") 0
        ([PollOutcome.ok procDoc] ++ [PollOutcome.netError])).1.alert =
       mkAlert "error" "Polling failed. Check connection." ∧
     (runBGPoll "" "j1" (bgPollInit "j1") 0
        ([PollOutcome.ok procDoc] ++ [PollOutcome.netError])).1.isProcessing = false ∧
     bgIntervalActive
       (runBGPoll "" "j1" (bgPollInit "j1") 0
         ([PollOutcome.ok procDoc] ++ [PollOutcome.netError])).1 = true) ∧
    ([PollOutcome.ok procDoc] ≠ [] →
      [PollOutcome.ok procDoc].length + 2 ≤
        (runBGPoll "" "j1" (bgPollInit "j1") 0
          ([PollOutcome.ok procDoc] ++
            PollOutcome.netError :: [PollOutcome.ok procDoc])).2.length) :=
  bulk_poller_failure_handling_amended "" "j1" [PollOutcome.ok procDoc]
    [PollOutcome.ok procDoc] PollOutcome.netError
    (by
      intro x hx
      rcases List.mem_singleton.mp hx with rfl
      exact ⟨procDoc, rfl, rfl⟩)
    (Or.inl rfl)

theorem push_to_recruitcrm_precondition_witness :
    (pushToRecruitCRM "http://api" csgPushReadyState).2 ≠ [] ∧
    (handleSendToRecruitCRM "http://api" "cand1" bgDoneState).2 ≠ [] := by
  have h := push_to_recruitcrm_precondition "http://api" "cand1" csgPushReadyState
    bgDoneState (by decide)
  exact ⟨h.1.mpr ⟨by decide, by decide⟩,
         h.2.2.2.1.mpr ⟨"<p>S</p>", by decide, by decide⟩⟩

end CandidateSummary
